import Mathlib

/-!
Verification development for `backend/server.js`.

The file embeds the Express application assembled in `backend/server.js`:

* the values the script computes (`allowedOrigins`, `PORT`);
* the callbacks the script defines (CORS origin check, `/health`, `/`, the
  404 handler, the global error handler), written as effectful bodies whose
  observable effects (console lines, responses sent, callback invocations)
  are recorded in order;
* the middleware stack in registration order and its dispatch;
* the process life cycle (main script, promise reactions, SIGTERM handler)
  as a transition system over the events the Node event loop delivers.

What the script takes from its libraries (Express dispatch, the `cors`
middleware, `body-parser`, Mongoose and `http.Server` completion callbacks)
is stated where it is used, next to the definition that relies on it.
-/

namespace Server

/-! ## Values -/

/-- Response body: nothing, a JSON object of string fields, or some other JSON text. -/
inductive Body where
  | empty
  | object (fields : List (String × String))
  | raw (text : String)
deriving DecidableEq, Repr

/-- What a client receives: the status code and the body. -/
structure Response where
  status : Nat
  body : Body
deriving DecidableEq, Repr

/-- A JavaScript error object, with the properties the server or its libraries read. -/
structure Err where
  message : String
  stack : String
  status : Option Nat
  kind : Option String
deriving DecidableEq, Repr

/-- Result of `new Error(message)`: the stack starts with the header line. -/
def newError (message : String) : Err :=
  { message := message, stack := "Error: " ++ message, status := none, kind := none }

/-- Which body parser takes up a request, decided from its `Content-Type`
(a request without body is taken up by none). -/
inductive ContentKind where
  | json
  | urlencoded
  | other
deriving DecidableEq, Repr

/-- An inbound request, reduced to what the application inspects:
`origin` is `req.headers.origin` (absent when the header is missing),
`decodable` whether the parser supports the charset and content coding,
`bodyLength` the number of bytes of the decoded body, `wellFormed` whether
the parser for its content type accepts the bytes. -/
structure Request where
  method : String
  path : String
  origin : Option String
  contentKind : ContentKind
  decodable : Bool
  bodyLength : Nat
  wellFormed : Bool
deriving DecidableEq, Repr

/-! ## `allowedOrigins` (server.js line 15) -/

/-- JavaScript `a || b` for `a` a string or `undefined`: the empty string and
`undefined` are falsy. -/
def orElse (a : Option String) (b : String) : String :=
  match a with
  | none => b
  | some s => if s = "" then b else s

/-- `String.prototype.split` with a one-character separator, on the characters. -/
def splitChars (sep : Char) : List Char → List (List Char)
  | [] => [[]]
  | c :: cs =>
    if c = sep then [] :: splitChars sep cs
    else
      match splitChars sep cs with
      | [] => [[c]]
      | field :: fields => (c :: field) :: fields

/-- `s.split(sep)` for a one-character separator. -/
def split (s : String) (sep : Char) : List String :=
  (splitChars sep s.data).map String.mk

/-- `(process.env.CORS_ORIGIN || "http://localhost:4200").split(",")`. -/
def allowedOrigins (corsOrigin : Option String) : List String :=
  split (orElse corsOrigin "http://localhost:4200") ','

/-- `Array.prototype.includes` on an array of strings, for an argument that
is a string or `undefined`. -/
def includes (xs : List String) (x : Option String) : Bool :=
  match x with
  | none => false
  | some s => xs.any (fun y => y == s)

/-- JavaScript `!x` for `x` a string or `undefined`. -/
def falsy (x : Option String) : Bool :=
  match x with
  | none => true
  | some s => s == ""

/-! ## The CORS origin callback (server.js lines 17-20) -/

/-- Arguments of one invocation of the `callback` handed to the origin function. -/
structure CallbackArgs where
  err : Option Err
  allow : Option Bool
deriving DecidableEq, Repr

/-- Bodies that invoke a callback: the invocations are recorded in order. -/
abbrev CallbackM := StateM (List CallbackArgs)

/-- One invocation `callback(err, allow)`. -/
def callback (err : Option Err) (allow : Option Bool) : CallbackM Unit :=
  modify fun calls => calls ++ [{ err := err, allow := allow }]

/-- The function given as `origin` option to `cors`. -/
def originCheck (allowedOrigins : List String) (origin : Option String) : CallbackM Unit := do
  if falsy origin || includes allowedOrigins origin then
    callback none (some true)
    return
  callback (some (newError "Not allowed by CORS")) none

/-- Invocations of the callback made by one run of the origin function. -/
def originCalls (allowedOrigins : List String) (origin : Option String) : List CallbackArgs :=
  ((originCheck allowedOrigins origin).run []).2

/-! ## Request handlers (server.js lines 43-66) -/

/-- Observable effects of a handler body. -/
structure Res where
  console : List String
  sent : List Response
deriving DecidableEq, Repr

/-- Handler bodies: console lines and responses are recorded in order. -/
abbrev HandlerM := StateM Res

/-- One call `console.error(line)`. -/
def consoleError (line : String) : HandlerM Unit :=
  modify fun r => { r with console := r.console ++ [line] }

/-- One call `res.status(status).json(fields)`. -/
def sendJson (status : Nat) (fields : List (String × String)) : HandlerM Unit :=
  modify fun r => { r with sent := r.sent ++ [{ status := status, body := Body.object fields }] }

/-- Effects of a handler body started on a fresh response object. -/
def effectsOf (h : HandlerM Unit) : Res :=
  (h.run { console := [], sent := [] }).2

/-- Handler of `GET /health`; `readyState` is `db.mongoose.connection.readyState`. -/
def healthHandler (readyState : Nat) : HandlerM Unit := do
  let state := readyState
  if state == 1 then
    sendJson 200 [("status", "ok"), ("db", "connected")]
    return
  sendJson 503 [("status", "error"), ("db", "disconnected")]

/-- Handler of `GET /`; `res.json` without `status` answers 200. -/
def rootHandler : HandlerM Unit := do
  sendJson 200 [("message", "Welcome to the Tutorials API.")]

/-- The 404 handler. -/
def notFoundHandler : HandlerM Unit := do
  sendJson 404 [("message", "Route not found")]

/-- The global error handler. -/
def errorHandler (err : Err) : HandlerM Unit := do
  consoleError err.stack
  sendJson 500 [("message", "Internal server error")]

/-! ## Middleware taken from libraries (server.js lines 9-26) -/

/-- What a middleware or handler does with a request: `next()`, `next(err)`,
send a response, or neither (the request stays unanswered). -/
inductive Outcome where
  | next
  | fail (e : Err)
  | respond (r : Response)
  | pending
deriving DecidableEq, Repr

/-- What the client receives for a response sent with `res.json`: for a
`HEAD` request status and headers go out and the body is left out. -/
def onWire (req : Request) (r : Response) : Response :=
  if req.method = "HEAD" then { r with body := Body.empty } else r

/-- Outcome of a handler body for a request: the first response it sent, if
any, as the client receives it. -/
def toOutcome (req : Request) (h : HandlerM Unit) : Outcome :=
  match (effectsOf h).sent with
  | [] => Outcome.pending
  | r :: _ => Outcome.respond (onWire req r)

/-- The middleware returned by `cors(options)` for a function-valued `origin`
option. The library hands `req.headers.origin` to the function; on an error
it calls `next(err)`; otherwise it answers an `OPTIONS` request itself with
`optionsSuccessStatus` and an empty body (`preflightContinue` is off), and
calls `next()` for every other method. -/
def corsMiddleware (allowedOrigins : List String) (optionsSuccessStatus : Nat)
    (req : Request) : Outcome :=
  match originCalls allowedOrigins req.origin with
  | [] => Outcome.pending
  | call :: _ =>
    match call.err with
    | some e => Outcome.fail e
    | none =>
      if call.allow = some true then
        if req.method = "OPTIONS" then
          Outcome.respond { status := optionsSuccessStatus, body := Body.empty }
        else Outcome.next
      else Outcome.next

/-- Value of the `limit` option `"10kb"` in bytes (the parser reads `kb` as 1024). -/
def bodyLimit : Nat := 10 * 1024

/-- Error raised by a body parser for a body over its limit. -/
def payloadTooLarge : Err :=
  { message := "request entity too large"
    stack := "PayloadTooLargeError: request entity too large"
    status := some 413
    kind := some "entity.too.large" }

/-- Error raised by a body parser for a body within the limit that it cannot
accept: a JSON syntax error, or a form with too many parameters. -/
def parseError (k : ContentKind) : Err :=
  match k with
  | ContentKind.urlencoded =>
    { message := "too many parameters"
      stack := "PayloadTooLargeError: too many parameters"
      status := some 413
      kind := some "parameters.too.many" }
  | _ =>
    { message := "Unexpected token"
      stack := "SyntaxError: Unexpected token"
      status := some 400
      kind := some "entity.parse.failed" }

/-- Error raised by a body parser for a charset or content coding it does
not support. -/
def unsupportedMedia : Err :=
  { message := "unsupported charset"
    stack := "UnsupportedMediaTypeError: unsupported charset"
    status := some 415
    kind := some "charset.unsupported" }

/-- The middleware returned by `express.json` and `express.urlencoded`: a
request that is not of its content type is passed on; charset and content
coding are checked first, then the length against the limit, and only then
is the content parsed. -/
def bodyParser (accepts : ContentKind) (limit : Nat) (req : Request) : Outcome :=
  if req.contentKind ≠ accepts then Outcome.next
  else if !req.decodable then Outcome.fail unsupportedMedia
  else if req.bodyLength > limit then Outcome.fail payloadTooLarge
  else if req.wellFormed then Outcome.next
  else Outcome.fail (parseError accepts)

/-! ## The middleware stack and its dispatch -/

/-- The router's test whether a route registered for (method, path) handles a request. -/
abbrev Matcher := String → String → Request → Bool

/-- ASCII lower-casing of a path. -/
def lowerPath (s : String) : List Char :=
  s.data.map Char.toLower

/-- Express default matching of a literal route path (case-insensitive, one
optional trailing slash); a `GET` route also serves `HEAD`. -/
def expressMatch : Matcher := fun method path req =>
  (req.method == method || (method == "GET" && req.method == "HEAD")) &&
    (let p := lowerPath (if path = "/" then "" else path)
     lowerPath req.path == p || lowerPath req.path == p ++ ['/'])

/-- One entry of the application stack. -/
inductive Layer where
  | use (name : String) (f : Request → Outcome)
  | get (name : String) (path : String) (f : Request → Outcome)
  | mount (name : String) (f : Request → Option Outcome)
  | useError (name : String) (f : Err → Request → Outcome)

/-- Name under which a layer appears in a trace. -/
def Layer.name : Layer → String
  | Layer.use n _ => n
  | Layer.get n _ _ => n
  | Layer.mount n _ => n
  | Layer.useError n _ => n

/-- Whether Express invokes a layer, and with what outcome: with an error in
flight only error-handling middleware runs, without one only the others,
and a route only when it matches. -/
def invoke (m : Matcher) (req : Request) : Layer → Option Err → Option Outcome
  | Layer.use _ f, none => some (f req)
  | Layer.get _ path f, none => if m "GET" path req then some (f req) else none
  | Layer.mount _ f, none => f req
  | Layer.useError _ f, some e => some (f e req)
  | _, _ => none

/-- Express dispatch: the layers invoked for a request, in order, each with
its outcome. -/
def dispatch (m : Matcher) (req : Request) : List Layer → Option Err → List (String × Outcome)
  | [], _ => []
  | layer :: rest, inFlight =>
    match invoke m req layer inFlight with
    | none => dispatch m req rest inFlight
    | some Outcome.next => (layer.name, Outcome.next) :: dispatch m req rest none
    | some (Outcome.fail e) => (layer.name, Outcome.fail e) :: dispatch m req rest (some e)
    | some o => [(layer.name, o)]

/-- The stack built by server.js, in registration order. `tutorialRoutes`
stands for the routes registered by `./app/routes/turorial.routes` (`none`:
no such route matches), `readyState` for the connection state at the time
of the request. -/
def app (allowedOrigins : List String) (tutorialRoutes : Request → Option Outcome)
    (readyState : Nat) : List Layer :=
  [ Layer.use "helmet" (fun _ => Outcome.next),
    Layer.use "compression" (fun _ => Outcome.next),
    Layer.use "cors" (corsMiddleware allowedOrigins 200),
    Layer.use "json" (bodyParser ContentKind.json bodyLimit),
    Layer.use "urlencoded" (bodyParser ContentKind.urlencoded bodyLimit),
    Layer.get "health" "/health" (fun req => toOutcome req (healthHandler readyState)),
    Layer.get "root" "/" (fun req => toOutcome req rootHandler),
    Layer.mount "tutorials" tutorialRoutes,
    Layer.use "notFound" (fun req => toOutcome req notFoundHandler),
    Layer.useError "errorHandler" (fun err req => toOutcome req (errorHandler err)) ]

/-- Trace of one request through the application. -/
def handle (m : Matcher) (allowedOrigins : List String)
    (tutorialRoutes : Request → Option Outcome) (readyState : Nat) (req : Request) :
    List (String × Outcome) :=
  dispatch m req (app allowedOrigins tutorialRoutes readyState) none

/-- The response a trace ends with, if it ends with one. -/
def responseOf (trace : List (String × Outcome)) : Option Response :=
  match trace.getLast? with
  | some (_, Outcome.respond r) => some r
  | _ => none

/-- Names of the layers a trace went through. -/
def visited (trace : List (String × Outcome)) : List String :=
  trace.map Prod.fst

/-- Whether the request reached one of the route handlers. -/
def reachesRoute (trace : List (String × Outcome)) : Bool :=
  (visited trace).any (fun n => n == "health" || n == "root" || n == "tutorials")

/-- Whether the three request-inspecting middleware all pass a request on. -/
def passesMiddleware (allowedOrigins : List String) (req : Request) : Bool :=
  corsMiddleware allowedOrigins 200 req == Outcome.next &&
  bodyParser ContentKind.json bodyLimit req == Outcome.next &&
  bodyParser ContentKind.urlencoded bodyLimit req == Outcome.next

/-! ## The process (server.js lines 29-40 and 68-83) -/

/-- The environment variables the script reads. -/
structure Env where
  CORS_ORIGIN : Option String
  PORT : Option String
deriving DecidableEq, Repr

/-- `process.env.PORT || 8080`, as the text that is bound and logged. -/
def PORT (env : Env) : String :=
  orElse env.PORT "8080"

/-- Calls the script makes on its collaborators. -/
inductive Effect where
  | consoleLog (line : String)
  | consoleError (line : String)
  | connect (maxPoolSize : Nat)
  | listen (port : String)
  | handled (req : Request) (trace : List (String × Outcome))
  | serverClose
  | connectionClose (force : Bool)
  | exit (code : Nat)
deriving DecidableEq, Repr

/-- What the event loop delivers to the script: the connect promise settles,
the listener reports that it is bound, a request arrives, SIGTERM arrives,
the listener has finished closing, a connection close has completed. -/
inductive Event where
  | connectResolved
  | connectRejected (err : Err)
  | listening
  | request (req : Request)
  | sigterm
  | serverClosed
  | connectionClosed
deriving DecidableEq, Repr

/-- One line of the history of a run. -/
inductive Entry where
  | event (e : Event)
  | effect (x : Effect)
deriving DecidableEq, Repr

/-- State of the process. `log` is the history, newest entry first. The
counters hold the callbacks registered and not yet invoked: the reactions on
the connect promise, the `listen` callback, the callbacks given to
`server.close` and to `connection.close`. -/
structure Proc where
  log : List Entry
  allowedOrigins : List String
  readyState : Nat
  connectPending : Bool
  listenPending : Bool
  listening : Bool
  serverCloseCallbacks : Nat
  connectionCloseCallbacks : Nat
  exitCode : Option Nat
deriving DecidableEq, Repr

/-- What a call does to the collaborator it is made on: `connect` puts the
connection in state 2 (connecting) and leaves the promise pending, `listen`
binds the listener, `server.close` stops accepting and keeps the callback
for the `close` event, `connection.close` puts the connection in state 3
(disconnecting) and keeps the callback, `process.exit` ends the process. -/
def Effect.apply (s : Proc) : Effect → Proc
  | Effect.connect _ => { s with readyState := 2, connectPending := true }
  | Effect.listen _ => { s with listening := true, listenPending := true }
  | Effect.serverClose =>
    { s with listening := false, serverCloseCallbacks := s.serverCloseCallbacks + 1 }
  | Effect.connectionClose _ =>
    { s with readyState := 3, connectionCloseCallbacks := s.connectionCloseCallbacks + 1 }
  | Effect.exit code => { s with exitCode := some code }
  | _ => s

/-- The script makes a call; after `process.exit` no statement runs. -/
def perform (x : Effect) (s : Proc) : Proc :=
  if s.exitCode.isSome then s
  else { x.apply s with log := Entry.effect x :: (x.apply s).log }

/-- The event loop delivers an event: it enters the history. -/
def deliver (ev : Event) (s : Proc) : Proc :=
  { s with log := Entry.event ev :: s.log }

/-- State before the first statement with an effect. -/
def boot (env : Env) : Proc :=
  { log := []
    allowedOrigins := allowedOrigins env.CORS_ORIGIN
    readyState := 0
    connectPending := false
    listenPending := false
    listening := false
    serverCloseCallbacks := 0
    connectionCloseCallbacks := 0
    exitCode := none }

/-- The synchronous run of the script: `mongoose.connect` (lines 30-35), then
`app.listen` (line 70). The reactions and handlers it registers run later,
from `step`. -/
def main (env : Env) : Proc :=
  boot env |> perform (Effect.connect 10) |> perform (Effect.listen (PORT env))

/-- The `.then` reaction of line 36. -/
def onConnected (s : Proc) : Proc :=
  s |> perform (Effect.consoleLog "Connected to the database!")

/-- The `.catch` reaction of lines 37-40. -/
def onConnectError (err : Err) (s : Proc) : Proc :=
  s |> perform (Effect.consoleError ("Cannot connect to the database! " ++ err.stack))
    |> perform (Effect.exit 1)

/-- The `listen` callback of lines 70-72. -/
def onListening (env : Env) (s : Proc) : Proc :=
  s |> perform (Effect.consoleLog ("Server is running on port " ++ PORT env ++ "."))

/-- The callback given to `connection.close` (lines 78-81). -/
def onConnectionClosed (s : Proc) : Proc :=
  s |> perform (Effect.consoleLog "Server and DB connection closed.")
    |> perform (Effect.exit 0)

/-- The callback given to `server.close` (lines 77-82). -/
def onServerClosed (s : Proc) : Proc :=
  s |> perform (Effect.connectionClose false)

/-- The SIGTERM handler (lines 75-83). -/
def onSigterm (s : Proc) : Proc :=
  s |> perform (Effect.consoleLog "SIGTERM received, shutting down gracefully...")
    |> perform Effect.serverClose

/-- Runs a callback once for each of `n` registrations. -/
def times (n : Nat) (f : Proc → Proc) (s : Proc) : Proc :=
  match n with
  | 0 => s
  | k + 1 => times k f (f s)

/-- One turn of the event loop. An event is delivered only when the process
runs and something waits for it: a settlement while the connect promise is
pending, a request while the listener accepts, `close` of the listener
after `server.close` was called, completion of a connection close after
`connection.close` was called. Anything else leaves the state as it is. -/
def step (m : Matcher) (tutorialRoutes : Request → Option Outcome) (env : Env)
    (s : Proc) (ev : Event) : Proc :=
  if s.exitCode.isSome then s
  else
    match ev with
    | Event.connectResolved =>
      if s.connectPending then
        onConnected (deliver ev { s with connectPending := false, readyState := 1 })
      else s
    | Event.connectRejected err =>
      if s.connectPending then
        onConnectError err (deliver ev { s with connectPending := false, readyState := 0 })
      else s
    | Event.listening =>
      if s.listenPending then onListening env (deliver ev { s with listenPending := false })
      else s
    | Event.request req =>
      if s.listening then
        perform (Effect.handled req (handle m s.allowedOrigins tutorialRoutes s.readyState req))
          (deliver ev s)
      else s
    | Event.sigterm => onSigterm (deliver ev s)
    | Event.serverClosed =>
      if 0 < s.serverCloseCallbacks then
        times s.serverCloseCallbacks onServerClosed
          (deliver ev { s with serverCloseCallbacks := 0 })
      else s
    | Event.connectionClosed =>
      if 0 < s.connectionCloseCallbacks then
        onConnectionClosed
          (deliver ev { s with connectionCloseCallbacks := s.connectionCloseCallbacks - 1
                               readyState := 0 })
      else s

/-- A run: the events are delivered one after the other. -/
def run (m : Matcher) (tutorialRoutes : Request → Option Outcome) (env : Env)
    (s : Proc) (evs : List Event) : Proc :=
  evs.foldl (step m tutorialRoutes env) s

/-- The calls of a history, oldest first. -/
def effects (log : List Entry) : List Effect :=
  log.reverse.filterMap fun
    | Entry.effect x => some x
    | Entry.event _ => none

/-- What must have happened before an entry of the history: a connection
close is not forced and follows the `close` of the listener, which follows
`server.close`; `exit(0)` follows the completion of a connection close,
which follows `connection.close(false)`. -/
def precondition (older : List Entry) : Entry → Prop
  | Entry.effect (Effect.connectionClose force) =>
    force = false ∧ Entry.event Event.serverClosed ∈ older
  | Entry.effect (Effect.exit 0) => Entry.event Event.connectionClosed ∈ older
  | Entry.event Event.serverClosed => Entry.effect Effect.serverClose ∈ older
  | Entry.event Event.connectionClosed =>
    Entry.effect (Effect.connectionClose false) ∈ older
  | _ => True

/-- A history in which every entry comes after what it requires. -/
def Ordered : List Entry → Prop
  | [] => True
  | e :: older => precondition older e ∧ Ordered older

/-- Number of `connect` calls in a history. -/
def connectCalls (log : List Entry) : Nat :=
  log.countP fun
    | Entry.effect (Effect.connect _) => true
    | _ => false

/-- Number of requests dispatched in a history. -/
def servedRequests (log : List Entry) : Nat :=
  log.countP fun
    | Entry.effect (Effect.handled _ _) => true
    | _ => false

/-- Invariant of the runs: the history is ordered, and a callback that waits
was registered by a call that is in the history. -/
def Consistent (s : Proc) : Prop :=
  Ordered s.log ∧
  (0 < s.serverCloseCallbacks → Entry.effect Effect.serverClose ∈ s.log) ∧
  (0 < s.connectionCloseCallbacks → Entry.effect (Effect.connectionClose false) ∈ s.log)

/-! # Theorems -/

/-! ## Effects of the callbacks -/

theorem originCalls_eq (L : List String) (o : Option String) :
    originCalls L o =
      if falsy o || includes L o then [{ err := none, allow := some true }]
      else [{ err := some (newError "Not allowed by CORS"), allow := none }] := by
  by_cases h : (falsy o || includes L o) = true
  · simp [originCalls, originCheck, callback, h, StateT.run, modify, modifyGet,
      MonadStateOf.modifyGet, StateT.modifyGet, bind, StateT.bind, pure, StateT.pure]
  · simp [originCalls, originCheck, callback, h, StateT.run, modify, modifyGet,
      MonadStateOf.modifyGet, StateT.modifyGet, bind, StateT.bind, pure, StateT.pure]

theorem includes_iff (L : List String) (o : String) : includes L (some o) = true ↔ o ∈ L := by
  simp [includes, List.any_eq_true]

theorem healthHandler_sent (s : Nat) :
    (effectsOf (healthHandler s)).sent =
      if s = 1 then [{ status := 200, body := Body.object [("status", "ok"), ("db", "connected")] }]
      else [{ status := 503, body := Body.object [("status", "error"), ("db", "disconnected")] }] := by
  by_cases h : s = 1
  · subst h; rfl
  · simp [healthHandler, effectsOf, sendJson, h, StateT.run, modify, modifyGet,
      MonadStateOf.modifyGet, StateT.modifyGet, bind, StateT.bind, pure, StateT.pure]

theorem errorHandler_effects (e : Err) :
    effectsOf (errorHandler e) =
      { console := [e.stack]
        sent := [{ status := 500, body := Body.object [("message", "Internal server error")] }] } := by
  rfl

theorem toOutcome_errorHandler (req : Request) (e : Err) :
    toOutcome req (errorHandler e) =
      Outcome.respond (onWire req
        { status := 500, body := Body.object [("message", "Internal server error")] }) := by
  rfl

theorem toOutcome_notFoundHandler (req : Request) :
    toOutcome req notFoundHandler =
      Outcome.respond (onWire req
        { status := 404, body := Body.object [("message", "Route not found")] }) := by
  rfl

theorem toOutcome_healthHandler (req : Request) (s : Nat) :
    toOutcome req (healthHandler s) =
      Outcome.respond (onWire req (if s = 1 then
        { status := 200, body := Body.object [("status", "ok"), ("db", "connected")] }
      else { status := 503, body := Body.object [("status", "error"), ("db", "disconnected")] })) := by
  unfold toOutcome
  rw [healthHandler_sent]
  by_cases h : s = 1 <;> simp [h]

theorem toOutcome_rootHandler (req : Request) :
    toOutcome req rootHandler =
      Outcome.respond (onWire req
        { status := 200, body := Body.object [("message", "Welcome to the Tutorials API.")] }) := by
  rfl

theorem onWire_status (req : Request) (r : Response) : (onWire req r).status = r.status := by
  unfold onWire
  split_ifs <;> rfl

theorem onWire_of_not_head (req : Request) (r : Response) (h : req.method ≠ "HEAD") :
    onWire req r = r := by
  simp [onWire, h]

theorem onWire_of_head (req : Request) (r : Response) (h : req.method = "HEAD") :
    onWire req r = { status := r.status, body := Body.empty } := by
  simp [onWire, h]

/-- C1: for every value of `readyState` the `/health` handler sends exactly
one response, fixed by that value alone: 200 `ok`/`connected` when it is 1,
503 `error`/`disconnected` for every other value. -/
theorem health_response_by_readyState (s : Nat) :
    (effectsOf (healthHandler s)).sent.length = 1 ∧
    (effectsOf (healthHandler 1)).sent =
      [{ status := 200, body := Body.object [("status", "ok"), ("db", "connected")] }] ∧
    (s ≠ 1 → (effectsOf (healthHandler s)).sent =
      [{ status := 503, body := Body.object [("status", "error"), ("db", "disconnected")] }]) := by
  refine ⟨?_, rfl, ?_⟩
  · rw [healthHandler_sent]; by_cases h : s = 1 <;> simp [h]
  · intro h; rw [healthHandler_sent]; simp [h]

/-- Instance of C1 at `readyState` 2 (connecting). -/
theorem health_response_by_readyState_witness :
    (effectsOf (healthHandler 2)).sent =
      [{ status := 503, body := Body.object [("status", "error"), ("db", "disconnected")] }] :=
  (health_response_by_readyState 2).2.2 (by decide)

/-- C5: for every allow-list and every request, the origin check invokes its
callback once, with no error and the value `true`, when the request has no
`Origin` header and when its `Origin` is an element of the list; the CORS
middleware then raises no error. -/
theorem originCheck_allows (L : List String) (req : Request)
    (h : req.origin = none ∨ ∃ o, req.origin = some o ∧ o ∈ L) :
    originCalls L req.origin = [{ err := none, allow := some true }] ∧
    ∀ e, corsMiddleware L 200 req ≠ Outcome.fail e := by
  have hc : (falsy req.origin || includes L req.origin) = true := by
    rcases h with h | ⟨o, ho, hL⟩
    · simp [h, falsy]
    · rw [ho, (includes_iff L o).2 hL]; simp
  have h1 : originCalls L req.origin = [{ err := none, allow := some true }] := by
    rw [originCalls_eq, if_pos hc]
  refine ⟨h1, ?_⟩
  intro e
  simp only [corsMiddleware, h1]
  by_cases hm : req.method = "OPTIONS" <;> simp [hm]

/-- Instance of C5 at the default origin. -/
theorem originCheck_allows_witness :
    originCalls ["http://localhost:4200"] (some "http://localhost:4200") =
      [{ err := none, allow := some true }] :=
  (originCheck_allows ["http://localhost:4200"]
    { method := "GET", path := "/", origin := some "http://localhost:4200",
      contentKind := ContentKind.other, decodable := true, bodyLength := 0, wellFormed := true }
    (Or.inr ⟨"http://localhost:4200", rfl, by decide⟩)).1

/-- C7: the response of the global error handler is the same for any two
errors, status 500 with body `message: "Internal server error"`, and it is
always sent (exactly once); the error only reaches the console. -/
theorem errorHandler_response_constant (e1 e2 : Err) :
    (effectsOf (errorHandler e1)).sent = (effectsOf (errorHandler e2)).sent ∧
    (effectsOf (errorHandler e1)).sent =
      [{ status := 500, body := Body.object [("message", "Internal server error")] }] ∧
    (effectsOf (errorHandler e1)).console = [e1.stack] := by
  simp [errorHandler_effects]

/-! ## Traces through the stack -/

theorem corsMiddleware_eq (L : List String) (req : Request) :
    corsMiddleware L 200 req =
      if falsy req.origin || includes L req.origin then
        if req.method = "OPTIONS" then Outcome.respond { status := 200, body := Body.empty }
        else Outcome.next
      else Outcome.fail (newError "Not allowed by CORS") := by
  by_cases h : (falsy req.origin || includes L req.origin) = true
  · simp [corsMiddleware, originCalls_eq, h]
  · simp [corsMiddleware, originCalls_eq, h]

theorem handle_cors_fail (m : Matcher) (L : List String) (tut : Request → Option Outcome)
    (rs : Nat) (req : Request) (e : Err) (h : corsMiddleware L 200 req = Outcome.fail e) :
    handle m L tut rs req =
      [("helmet", Outcome.next), ("compression", Outcome.next), ("cors", Outcome.fail e),
       ("errorHandler", Outcome.respond (onWire req
          { status := 500, body := Body.object [("message", "Internal server error")] }))] := by
  simp [handle, app, dispatch, invoke, Layer.name, h, toOutcome_errorHandler]

theorem handle_cors_respond (m : Matcher) (L : List String) (tut : Request → Option Outcome)
    (rs : Nat) (req : Request) (r : Response) (h : corsMiddleware L 200 req = Outcome.respond r) :
    handle m L tut rs req =
      [("helmet", Outcome.next), ("compression", Outcome.next), ("cors", Outcome.respond r)] := by
  simp [handle, app, dispatch, invoke, Layer.name, h]

theorem handle_json_fail (m : Matcher) (L : List String) (tut : Request → Option Outcome)
    (rs : Nat) (req : Request) (e : Err) (hc : corsMiddleware L 200 req = Outcome.next)
    (h : bodyParser ContentKind.json bodyLimit req = Outcome.fail e) :
    handle m L tut rs req =
      [("helmet", Outcome.next), ("compression", Outcome.next), ("cors", Outcome.next),
       ("json", Outcome.fail e),
       ("errorHandler", Outcome.respond (onWire req
          { status := 500, body := Body.object [("message", "Internal server error")] }))] := by
  simp [handle, app, dispatch, invoke, Layer.name, hc, h, toOutcome_errorHandler]

theorem handle_urlencoded_fail (m : Matcher) (L : List String) (tut : Request → Option Outcome)
    (rs : Nat) (req : Request) (e : Err) (hc : corsMiddleware L 200 req = Outcome.next)
    (hj : bodyParser ContentKind.json bodyLimit req = Outcome.next)
    (h : bodyParser ContentKind.urlencoded bodyLimit req = Outcome.fail e) :
    handle m L tut rs req =
      [("helmet", Outcome.next), ("compression", Outcome.next), ("cors", Outcome.next),
       ("json", Outcome.next), ("urlencoded", Outcome.fail e),
       ("errorHandler", Outcome.respond (onWire req
          { status := 500, body := Body.object [("message", "Internal server error")] }))] := by
  simp [handle, app, dispatch, invoke, Layer.name, hc, hj, h, toOutcome_errorHandler]

theorem handle_unmatched (m : Matcher) (L : List String) (tut : Request → Option Outcome)
    (rs : Nat) (req : Request) (hc : corsMiddleware L 200 req = Outcome.next)
    (hj : bodyParser ContentKind.json bodyLimit req = Outcome.next)
    (hu : bodyParser ContentKind.urlencoded bodyLimit req = Outcome.next)
    (hh : m "GET" "/health" req = false) (hr : m "GET" "/" req = false) (ht : tut req = none) :
    handle m L tut rs req =
      [("helmet", Outcome.next), ("compression", Outcome.next), ("cors", Outcome.next),
       ("json", Outcome.next), ("urlencoded", Outcome.next),
       ("notFound", Outcome.respond (onWire req
          { status := 404, body := Body.object [("message", "Route not found")] }))] := by
  simp [handle, app, dispatch, invoke, Layer.name, hc, hj, hu, hh, hr, ht,
    toOutcome_notFoundHandler]

theorem bodyParser_cases (k : ContentKind) (req : Request) :
    bodyParser k bodyLimit req = Outcome.next ∨
    ∃ e, bodyParser k bodyLimit req = Outcome.fail e := by
  unfold bodyParser
  split_ifs <;> simp

theorem corsMiddleware_cases (L : List String) (req : Request) :
    corsMiddleware L 200 req = Outcome.next ∨
    corsMiddleware L 200 req = Outcome.respond { status := 200, body := Body.empty } ∨
    corsMiddleware L 200 req = Outcome.fail (newError "Not allowed by CORS") := by
  rw [corsMiddleware_eq]
  split_ifs <;> simp

theorem notFound_not_visited_of_matched (m : Matcher) (L : List String)
    (tut : Request → Option Outcome) (rs : Nat) (req : Request)
    (h : m "GET" "/health" req = true ∨ m "GET" "/" req = true) :
    "notFound" ∉ visited (handle m L tut rs req) := by
  rcases corsMiddleware_cases L req with hc | hc | hc
  · rcases bodyParser_cases ContentKind.json req with hj | ⟨e, hj⟩
    · rcases bodyParser_cases ContentKind.urlencoded req with hu | ⟨e, hu⟩
      · by_cases hh : m "GET" "/health" req = true
        · simp [handle, app, dispatch, invoke, Layer.name, hc, hj, hu, hh,
            toOutcome_healthHandler, visited]
        · have hr : m "GET" "/" req = true := by
            rcases h with h | h
            · exact absurd h hh
            · exact h
          simp [handle, app, dispatch, invoke, Layer.name, hc, hj, hu, hh, hr,
            toOutcome_rootHandler, visited]
      · rw [handle_urlencoded_fail m L tut rs req _ hc hj hu]; simp [visited]
    · rw [handle_json_fail m L tut rs req _ hc hj]; simp [visited]
  · rw [handle_cors_respond m L tut rs req _ hc]; simp [visited]
  · rw [handle_cors_fail m L tut rs req _ hc]; simp [visited]

/-- C6 fails at the empty string: with the default allow-list, a request
carrying an empty `Origin` header, which is not in the list, is allowed by
the origin check and answered by the `/health` handler. -/
theorem empty_origin_is_allowed :
    "" ∉ allowedOrigins none ∧
    originCalls (allowedOrigins none) (some "") = [{ err := none, allow := some true }] ∧
    originCalls (allowedOrigins none) (some "") ≠
      [{ err := some (newError "Not allowed by CORS"), allow := none }] ∧
    handle expressMatch (allowedOrigins none) (fun _ => none) 1
        { method := "GET", path := "/health", origin := some "",
          contentKind := ContentKind.other, decodable := true, bodyLength := 0, wellFormed := true } =
      [("helmet", Outcome.next), ("compression", Outcome.next), ("cors", Outcome.next),
       ("json", Outcome.next), ("urlencoded", Outcome.next),
       ("health", Outcome.respond
          { status := 200, body := Body.object [("status", "ok"), ("db", "connected")] })] := by
  decide

/-- C6, amended: for every allow-list and every request carrying a non-empty
`Origin` that is not an element of the list, the origin check invokes its
callback once with the error "Not allowed by CORS", and the request goes
from the CORS middleware straight to the global error handler, which
answers 500 (without the body for `HEAD`), reaching no route handler; an
empty `Origin` is treated like a missing header. -/
theorem originCheck_rejects (m : Matcher) (L : List String) (tut : Request → Option Outcome)
    (rs : Nat) (req : Request) (o : String)
    (ho : req.origin = some o) (hne : o ≠ "") (hL : o ∉ L) :
    originCalls L req.origin =
      [{ err := some (newError "Not allowed by CORS"), allow := none }] ∧
    handle m L tut rs req =
      [("helmet", Outcome.next), ("compression", Outcome.next),
       ("cors", Outcome.fail (newError "Not allowed by CORS")),
       ("errorHandler", Outcome.respond (onWire req
          { status := 500, body := Body.object [("message", "Internal server error")] }))] ∧
    reachesRoute (handle m L tut rs req) = false ∧
    originCalls L (some "") = [{ err := none, allow := some true }] := by
  have hc : (falsy req.origin || includes L req.origin) = false := by
    have h2 : includes L (some o) = false := by
      rw [Bool.eq_false_iff]; intro h; exact hL ((includes_iff L o).1 h)
    rw [ho, h2]; simp [falsy, hne]
  have hm : corsMiddleware L 200 req = Outcome.fail (newError "Not allowed by CORS") := by
    rw [corsMiddleware_eq, hc]; simp
  have ht := handle_cors_fail m L tut rs req _ hm
  refine ⟨?_, ht, ?_, ?_⟩
  · rw [originCalls_eq, hc]; simp
  · rw [ht]; rfl
  · rw [originCalls_eq]; simp [falsy]

/-- Instance of the amended C6 at an origin outside the list. -/
theorem originCheck_rejects_witness :
    originCalls ["http://localhost:4200"] (some "http://evil.example") =
      [{ err := some (newError "Not allowed by CORS"), allow := none }] :=
  (originCheck_rejects expressMatch ["http://localhost:4200"] (fun _ => none) 1
    { method := "GET", path := "/health", origin := some "http://evil.example",
      contentKind := ContentKind.other, decodable := true, bodyLength := 0, wellFormed := true }
    "http://evil.example" rfl (by decide) (by decide)).1

/-- C8 fails for a request that does not get to the size check: a POST with
a JSON body of 20000 bytes from an origin outside the default allow-list is
rejected with the CORS error, and one without `Origin` whose charset the
parser does not support is rejected with the unsupported-media error; for
neither is a payload-too-large error raised. -/
theorem large_body_rejected_before_size_check :
    bodyLimit < 20000 ∧
    handle expressMatch (allowedOrigins none) (fun _ => none) 1
        { method := "POST", path := "/api/tutorials", origin := some "http://evil.example",
          contentKind := ContentKind.json, decodable := true, bodyLength := 20000,
          wellFormed := true } =
      [("helmet", Outcome.next), ("compression", Outcome.next),
       ("cors", Outcome.fail (newError "Not allowed by CORS")),
       ("errorHandler", Outcome.respond
          { status := 500, body := Body.object [("message", "Internal server error")] })] ∧
    handle expressMatch (allowedOrigins none) (fun _ => none) 1
        { method := "POST", path := "/api/tutorials", origin := none,
          contentKind := ContentKind.json, decodable := false, bodyLength := 20000,
          wellFormed := true } =
      [("helmet", Outcome.next), ("compression", Outcome.next), ("cors", Outcome.next),
       ("json", Outcome.fail unsupportedMedia),
       ("errorHandler", Outcome.respond
          { status := 500, body := Body.object [("message", "Internal server error")] })] ∧
    newError "Not allowed by CORS" ≠ payloadTooLarge ∧
    unsupportedMedia ≠ payloadTooLarge := by
  decide

/-- C8, amended: for every request the CORS middleware passes on, with a JSON
or form-encoded body in a supported charset and content coding and of more
than 10240 bytes, well-formed or not, the body parser of its content type
raises the payload-too-large error and the global error handler answers
500 (without the body for `HEAD`); no request with a JSON or form-encoded body of more than 10240 bytes,
whatever its origin, method and coding, reaches a route handler; for a body
of at most 10240 bytes neither parser raises the payload-too-large error. -/
theorem bodyLimit_enforced (m : Matcher) (L : List String) (tut : Request → Option Outcome)
    (rs : Nat) (req : Request)
    (hk : req.contentKind = ContentKind.json ∨ req.contentKind = ContentKind.urlencoded) :
    bodyLimit = 10240 ∧
    (10240 < req.bodyLength → corsMiddleware L 200 req = Outcome.next →
      req.decodable = true →
      ((if req.contentKind = ContentKind.json then "json" else "urlencoded"),
          Outcome.fail payloadTooLarge) ∈ handle m L tut rs req ∧
      responseOf (handle m L tut rs req) =
        some (onWire req
          { status := 500, body := Body.object [("message", "Internal server error")] })) ∧
    (10240 < req.bodyLength → reachesRoute (handle m L tut rs req) = false) ∧
    (req.bodyLength ≤ 10240 →
      bodyParser ContentKind.json bodyLimit req ≠ Outcome.fail payloadTooLarge ∧
      bodyParser ContentKind.urlencoded bodyLimit req ≠ Outcome.fail payloadTooLarge) := by
  have hjson : 10240 < req.bodyLength → req.contentKind = ContentKind.json →
      ∃ e, bodyParser ContentKind.json bodyLimit req = Outcome.fail e ∧
        (req.decodable = true → e = payloadTooLarge) := by
    intro hlen hj
    by_cases hd : req.decodable = true
    · exact ⟨payloadTooLarge, by simp [bodyParser, hj, hd, bodyLimit, hlen], fun _ => rfl⟩
    · exact ⟨unsupportedMedia, by simp [bodyParser, hj, hd], fun h => absurd h hd⟩
  have hurl : 10240 < req.bodyLength → req.contentKind = ContentKind.urlencoded →
      bodyParser ContentKind.json bodyLimit req = Outcome.next ∧
      ∃ e, bodyParser ContentKind.urlencoded bodyLimit req = Outcome.fail e ∧
        (req.decodable = true → e = payloadTooLarge) := by
    intro hlen hu
    refine ⟨by simp [bodyParser, hu], ?_⟩
    by_cases hd : req.decodable = true
    · exact ⟨payloadTooLarge, by simp [bodyParser, hu, hd, bodyLimit, hlen], fun _ => rfl⟩
    · exact ⟨unsupportedMedia, by simp [bodyParser, hu, hd], fun h => absurd h hd⟩
  refine ⟨rfl, ?_, ?_, ?_⟩
  · intro hlen hc hd
    rcases hk with hj | hu
    · obtain ⟨e, he, hpt⟩ := hjson hlen hj
      rw [handle_json_fail m L tut rs req _ hc he, hpt hd]
      simp [hj, responseOf]
    · obtain ⟨hjn, e, he, hpt⟩ := hurl hlen hu
      rw [handle_urlencoded_fail m L tut rs req _ hc hjn he, hpt hd]
      simp [hu, responseOf]
  · intro hlen
    rcases corsMiddleware_cases L req with hc | hc | hc
    · rcases hk with hj | hu
      · obtain ⟨e, he, _⟩ := hjson hlen hj
        rw [handle_json_fail m L tut rs req _ hc he]
        simp [reachesRoute, visited]
      · obtain ⟨hjn, e, he, _⟩ := hurl hlen hu
        rw [handle_urlencoded_fail m L tut rs req _ hc hjn he]
        simp [reachesRoute, visited]
    · rw [handle_cors_respond m L tut rs req _ hc]; rfl
    · rw [handle_cors_fail m L tut rs req _ hc]; rfl
  · intro hlen
    have hnot : ¬ (bodyLimit < req.bodyLength) := by simp [bodyLimit]; omega
    constructor
    · unfold bodyParser
      split_ifs <;> simp [payloadTooLarge, parseError, unsupportedMedia]
    · unfold bodyParser
      split_ifs <;> simp [payloadTooLarge, parseError, unsupportedMedia]

/-- Instance of the amended C8 at a malformed JSON body of 10241 bytes. -/
theorem bodyLimit_enforced_witness :
    responseOf (handle expressMatch ["http://localhost:4200"] (fun _ => none) 1
      { method := "POST", path := "/api/tutorials", origin := none,
        contentKind := ContentKind.json, decodable := true, bodyLength := 10241,
        wellFormed := false }) =
      some { status := 500, body := Body.object [("message", "Internal server error")] } :=
  ((bodyLimit_enforced expressMatch ["http://localhost:4200"] (fun _ => none) 1
    { method := "POST", path := "/api/tutorials", origin := none,
      contentKind := ContentKind.json, decodable := true, bodyLength := 10241,
      wellFormed := false }
    (Or.inl rfl)).2.1 (by decide) (by decide) rfl).2

/-- C9 fails at `HEAD`: a `HEAD /nothing` request without `Origin` and without
body passes the middleware and matches no route; it is answered by the 404
handler with status 404 and an empty body, not with the JSON object. -/
theorem head_unmatched_has_empty_body :
    passesMiddleware (allowedOrigins none)
        { method := "HEAD", path := "/nothing", origin := none,
          contentKind := ContentKind.other, decodable := true, bodyLength := 0,
          wellFormed := true } = true ∧
    expressMatch "GET" "/health"
        { method := "HEAD", path := "/nothing", origin := none,
          contentKind := ContentKind.other, decodable := true, bodyLength := 0,
          wellFormed := true } = false ∧
    expressMatch "GET" "/"
        { method := "HEAD", path := "/nothing", origin := none,
          contentKind := ContentKind.other, decodable := true, bodyLength := 0,
          wellFormed := true } = false ∧
    responseOf (handle expressMatch (allowedOrigins none) (fun _ => none) 1
        { method := "HEAD", path := "/nothing", origin := none,
          contentKind := ContentKind.other, decodable := true, bodyLength := 0,
          wellFormed := true }) =
      some { status := 404, body := Body.empty } ∧
    responseOf (handle expressMatch (allowedOrigins none) (fun _ => none) 1
        { method := "HEAD", path := "/nothing", origin := none,
          contentKind := ContentKind.other, decodable := true, bodyLength := 0,
          wellFormed := true }) ≠
      some { status := 404, body := Body.object [("message", "Route not found")] } := by
  decide

/-- C9, amended: every request that the middleware pass on and that matches
neither `GET /health`, nor `GET /`, nor a tutorial route, whatever its
method and path, is answered by the 404 handler with status 404; the body
is `message: "Route not found"` for every method other than `HEAD` and
empty for `HEAD`; a request that matches `GET /health` or `GET /` never
reaches the 404 handler. -/
theorem unmatched_route_not_found (m : Matcher) (L : List String)
    (tut : Request → Option Outcome) (rs : Nat) (req : Request) :
    (passesMiddleware L req = true → m "GET" "/health" req = false →
      m "GET" "/" req = false → tut req = none →
      (handle m L tut rs req).getLast? =
        some ("notFound", Outcome.respond (onWire req
          { status := 404, body := Body.object [("message", "Route not found")] })) ∧
      (responseOf (handle m L tut rs req)).map Response.status = some 404 ∧
      (req.method ≠ "HEAD" → responseOf (handle m L tut rs req) =
        some { status := 404, body := Body.object [("message", "Route not found")] }) ∧
      (req.method = "HEAD" → responseOf (handle m L tut rs req) =
        some { status := 404, body := Body.empty })) ∧
    (m "GET" "/health" req = true ∨ m "GET" "/" req = true →
      "notFound" ∉ visited (handle m L tut rs req)) := by
  refine ⟨?_, notFound_not_visited_of_matched m L tut rs req⟩
  intro hp hh hr ht
  simp only [passesMiddleware, Bool.and_eq_true, beq_iff_eq] at hp
  obtain ⟨⟨hc, hj⟩, hu⟩ := hp
  rw [handle_unmatched m L tut rs req hc hj hu hh hr ht]
  refine ⟨by simp, ?_, ?_, ?_⟩
  · simp [responseOf, onWire_status]
  · intro hm
    simp [responseOf, onWire_of_not_head req _ hm]
  · intro hm
    simp [responseOf, onWire_of_head req _ hm]

/-- Instance of the amended C9 at `DELETE /nothing`. -/
theorem unmatched_route_not_found_witness :
    responseOf (handle expressMatch ["http://localhost:4200"] (fun _ => none) 1
      { method := "DELETE", path := "/nothing", origin := some "http://localhost:4200",
        contentKind := ContentKind.urlencoded, decodable := true, bodyLength := 20,
        wellFormed := true }) =
      some { status := 404, body := Body.object [("message", "Route not found")] } :=
  ((unmatched_route_not_found expressMatch ["http://localhost:4200"] (fun _ => none) 1
    { method := "DELETE", path := "/nothing", origin := some "http://localhost:4200",
      contentKind := ContentKind.urlencoded, decodable := true, bodyLength := 20,
      wellFormed := true }).1
    (by decide) (by decide) (by decide) rfl).2.2.1 (by decide)

/-! ## Splitting at a separator -/

theorem splitChars_ne_nil (sep : Char) (cs : List Char) : splitChars sep cs ≠ [] := by
  cases cs with
  | nil => simp [splitChars]
  | cons c cs =>
    unfold splitChars
    split_ifs
    · simp
    · split <;> simp

theorem splitChars_cons_of_ne (sep c : Char) (cs : List Char) (h : c ≠ sep) :
    ∃ field fields, splitChars sep cs = field :: fields ∧
      splitChars sep (c :: cs) = (c :: field) :: fields := by
  cases hs : splitChars sep cs with
  | nil => exact absurd hs (splitChars_ne_nil sep cs)
  | cons field fields =>
    refine ⟨field, fields, rfl, ?_⟩
    simp [splitChars, h, hs]

theorem intercalate_cons_cons (sep c : Char) (field : List Char) (fields : List (List Char)) :
    [sep].intercalate ((c :: field) :: fields) = c :: [sep].intercalate (field :: fields) := by
  cases fields <;> simp [List.intercalate, List.intersperse]

theorem intercalate_nil_cons (sep : Char) (field : List Char) (fields : List (List Char)) :
    [sep].intercalate ([] :: field :: fields) = sep :: [sep].intercalate (field :: fields) := by
  simp [List.intercalate, List.intersperse]

theorem intercalate_splitChars (sep : Char) (cs : List Char) :
    [sep].intercalate (splitChars sep cs) = cs := by
  induction cs with
  | nil => simp [splitChars, List.intercalate, List.intersperse]
  | cons c cs ih =>
    by_cases h : c = sep
    · cases hs : splitChars sep cs with
      | nil => exact absurd hs (splitChars_ne_nil sep cs)
      | cons field fields =>
        rw [hs] at ih
        simp only [splitChars, h, if_true, hs]
        rw [intercalate_nil_cons, ih]
    · obtain ⟨field, fields, hs, hc⟩ := splitChars_cons_of_ne sep c cs h
      rw [hs] at ih
      rw [hc, intercalate_cons_cons, ih]

theorem sep_not_mem_splitChars (sep : Char) (cs : List Char) :
    ∀ field ∈ splitChars sep cs, sep ∉ field := by
  induction cs with
  | nil => simp [splitChars]
  | cons c cs ih =>
    by_cases h : c = sep
    · intro field hf
      simp only [splitChars, h, if_true, List.mem_cons] at hf
      rcases hf with hf | hf
      · simp [hf]
      · exact ih field hf
    · obtain ⟨field, fields, hs, hc⟩ := splitChars_cons_of_ne sep c cs h
      rw [hs] at ih
      rw [hc]
      intro f hf
      simp only [List.mem_cons] at hf
      rcases hf with hf | hf
      · subst hf
        have := ih field (by simp)
        simp only [List.mem_cons, not_or]
        exact ⟨fun e => h e.symm, this⟩
      · exact ih f (by simp [hf])

theorem length_splitChars (sep : Char) (cs : List Char) :
    (splitChars sep cs).length = cs.count sep + 1 := by
  induction cs with
  | nil => simp [splitChars]
  | cons c cs ih =>
    by_cases h : c = sep
    · simp [splitChars, h, ih]
    · obtain ⟨field, fields, hs, hc⟩ := splitChars_cons_of_ne sep c cs h
      rw [hs] at ih
      rw [hc, List.count_cons_of_ne (fun e => h e.symm)]
      simpa using ih

theorem splitChars_append_sep (sep : Char) (field : List Char) (rest : List Char)
    (h : sep ∉ field) :
    splitChars sep (field ++ sep :: rest) = field :: splitChars sep rest := by
  induction field with
  | nil => simp [splitChars]
  | cons c field ih =>
    simp only [List.mem_cons, not_or] at h
    have hc : c ≠ sep := fun e => h.1 e.symm
    simp [splitChars, hc, ih h.2]

theorem splitChars_of_not_mem (sep : Char) (field : List Char) (h : sep ∉ field) :
    splitChars sep field = [field] := by
  induction field with
  | nil => simp [splitChars]
  | cons c field ih =>
    simp only [List.mem_cons, not_or] at h
    have hc : c ≠ sep := fun e => h.1 e.symm
    simp [splitChars, hc, ih h.2]

theorem splitChars_intercalate (sep : Char) (fields : List (List Char))
    (hne : fields ≠ []) (h : ∀ field ∈ fields, sep ∉ field) :
    splitChars sep ([sep].intercalate fields) = fields := by
  induction fields with
  | nil => exact absurd rfl hne
  | cons f fs ih =>
    cases fs with
    | nil =>
      simpa [List.intercalate, List.intersperse] using
        splitChars_of_not_mem sep f (h f (by simp))
    | cons g gs =>
      have h1 : [sep].intercalate (f :: g :: gs) = f ++ sep :: [sep].intercalate (g :: gs) := by
        simp [List.intercalate, List.intersperse]
      rw [h1, splitChars_append_sep sep f _ (h f (by simp)),
        ih (by simp) (fun x hx => h x (by simp [hx]))]

theorem split_data (s : String) (sep : Char) :
    (split s sep).map String.data = splitChars sep s.data := by
  simp [split, List.map_map, Function.comp_def]

theorem perform_allowedOrigins (x : Effect) (s : Proc) :
    (perform x s).allowedOrigins = s.allowedOrigins := by
  unfold perform
  split_ifs
  · rfl
  · cases x <;> rfl

theorem times_allowedOrigins (n : Nat) (s : Proc) :
    (times n onServerClosed s).allowedOrigins = s.allowedOrigins := by
  induction n generalizing s with
  | zero => rfl
  | succ k ih =>
    simp only [times]
    rw [ih, onServerClosed, perform_allowedOrigins]

theorem step_allowedOrigins (m : Matcher) (tut : Request → Option Outcome) (env : Env)
    (s : Proc) (ev : Event) : (step m tut env s ev).allowedOrigins = s.allowedOrigins := by
  unfold step
  by_cases he : s.exitCode.isSome = true
  · simp [he]
  · simp only [he, if_false, Bool.false_eq_true]
    cases ev with
    | connectResolved =>
      simp only
      split_ifs
      · simp [onConnected, perform_allowedOrigins, deliver]
      · rfl
    | connectRejected err =>
      simp only
      split_ifs
      · simp [onConnectError, perform_allowedOrigins, deliver]
      · rfl
    | listening =>
      simp only
      split_ifs
      · simp [onListening, perform_allowedOrigins, deliver]
      · rfl
    | request req =>
      simp only
      split_ifs
      · simp [perform_allowedOrigins, deliver]
      · rfl
    | sigterm =>
      simp [onSigterm, perform_allowedOrigins, deliver]
    | serverClosed =>
      simp only
      split_ifs
      · simp [times_allowedOrigins, deliver]
      · rfl
    | connectionClosed =>
      simp only
      split_ifs
      · simp [onConnectionClosed, perform_allowedOrigins, deliver]
      · rfl

theorem run_allowedOrigins (m : Matcher) (tut : Request → Option Outcome) (env : Env)
    (s : Proc) (evs : List Event) : (run m tut env s evs).allowedOrigins = s.allowedOrigins := by
  induction evs generalizing s with
  | nil => rfl
  | cons ev evs ih =>
    simp only [run, List.foldl_cons] at ih ⊢
    rw [ih, step_allowedOrigins]

/-- C10: the allow-list is computed by the startup script and is the same in
every state of every run. It is `["http://localhost:4200"]` when
`CORS_ORIGIN` is unset or empty; otherwise it is the split of the value at
every comma: the fields are free of commas, are the only such list that
joined by commas gives the value back (so nothing is trimmed or dropped),
and number one more than the commas; an origin is included exactly when it
is equal to a field; for "http://a.com, http://b.com" the origin
"http://b.com" is not included. -/
theorem allowedOrigins_split (v : String) (m : Matcher) (tut : Request → Option Outcome)
    (env : Env) (evs : List Event) :
    (run m tut env (main env) evs).allowedOrigins = allowedOrigins env.CORS_ORIGIN ∧
    allowedOrigins none = ["http://localhost:4200"] ∧
    allowedOrigins (some "") = ["http://localhost:4200"] ∧
    (v ≠ "" → allowedOrigins (some v) = split v ',') ∧
    [','].intercalate ((split v ',').map String.data) = v.data ∧
    (∀ field ∈ split v ',', ',' ∉ field.data) ∧
    (∀ fields : List (List Char), fields ≠ [] → (∀ field ∈ fields, ',' ∉ field) →
      [','].intercalate fields = v.data → (split v ',').map String.data = fields) ∧
    (split v ',').length = v.data.count ',' + 1 ∧
    (∀ (L : List String) (o : String), includes L (some o) = true ↔ o ∈ L) ∧
    allowedOrigins (some "http://a.com, http://b.com") = ["http://a.com", " http://b.com"] ∧
    includes (allowedOrigins (some "http://a.com, http://b.com")) (some "http://b.com") = false := by
  refine ⟨?_, by decide, by decide, ?_, ?_, ?_, ?_, ?_, includes_iff, by decide, by decide⟩
  · rw [run_allowedOrigins]; rfl
  · intro hv
    simp [allowedOrigins, orElse, hv]
  · rw [split_data, intercalate_splitChars]
  · intro field hf
    have : field.data ∈ (split v ',').map String.data := List.mem_map_of_mem _ hf
    rw [split_data] at this
    exact sep_not_mem_splitChars ',' v.data _ this
  · intro fields hne hfree hjoin
    rw [split_data, ← hjoin, splitChars_intercalate ',' fields hne hfree]
  · have := congrArg List.length (split_data v ',')
    rw [List.length_map] at this
    rw [this, length_splitChars]

/-- Instance of C10 at a value with an empty field and a trailing blank. -/
theorem allowedOrigins_split_witness :
    allowedOrigins (some "http://a.com,,b ") = split "http://a.com,,b " ',' ∧
    split "http://a.com,,b " ',' = ["http://a.com", "", "b "] :=
  ⟨(allowedOrigins_split "http://a.com,,b " expressMatch (fun _ => none)
      { CORS_ORIGIN := some "http://a.com,,b ", PORT := none } []).2.2.2.1 (by decide),
   by decide⟩

/-! ## Runs of the process -/

theorem apply_log (x : Effect) (s : Proc) : (x.apply s).log = s.log := by
  cases x <;> rfl

theorem perform_of_exited (x : Effect) (s : Proc) (h : s.exitCode.isSome = true) :
    perform x s = s := by
  simp [perform, h]

theorem step_of_exited (m : Matcher) (tut : Request → Option Outcome) (env : Env) (s : Proc)
    (ev : Event) (h : s.exitCode.isSome = true) : step m tut env s ev = s := by
  simp [step, h]

theorem run_of_exited (m : Matcher) (tut : Request → Option Outcome) (env : Env) (s : Proc)
    (evs : List Event) (h : s.exitCode.isSome = true) : run m tut env s evs = s := by
  induction evs with
  | nil => rfl
  | cons ev evs ih =>
    simp only [run, List.foldl_cons] at ih ⊢
    rw [step_of_exited m tut env s ev h]
    exact ih

theorem run_append (m : Matcher) (tut : Request → Option Outcome) (env : Env) (s : Proc)
    (xs ys : List Event) :
    run m tut env s (xs ++ ys) = run m tut env (run m tut env s xs) ys := by
  simp [run, List.foldl_append]

theorem perform_consistent (x : Effect) (s : Proc) (hs : Consistent s)
    (hx : s.exitCode = none → precondition s.log (Entry.effect x)) :
    Consistent (perform x s) := by
  unfold perform
  by_cases he : s.exitCode.isSome = true
  · simpa [he] using hs
  · have hn : s.exitCode = none := by
      cases h : s.exitCode with
      | none => rfl
      | some c => simp [h] at he
    have hp := hx hn
    obtain ⟨h1, h2, h3⟩ := hs
    simp only [he, if_false, Bool.false_eq_true]
    cases x with
    | connectionClose force =>
      obtain ⟨hf, hmem⟩ := hp
      subst hf
      refine ⟨⟨⟨rfl, hmem⟩, h1⟩, ?_, ?_⟩
      · intro h; exact List.mem_cons_of_mem _ (h2 h)
      · intro _; exact List.mem_cons_self _ _
    | serverClose =>
      refine ⟨⟨hp, h1⟩, ?_, ?_⟩
      · intro _; exact List.mem_cons_self _ _
      · intro h; exact List.mem_cons_of_mem _ (h3 h)
    | consoleLog line =>
      exact ⟨⟨hp, h1⟩, fun h => List.mem_cons_of_mem _ (h2 h), fun h => List.mem_cons_of_mem _ (h3 h)⟩
    | consoleError line =>
      exact ⟨⟨hp, h1⟩, fun h => List.mem_cons_of_mem _ (h2 h), fun h => List.mem_cons_of_mem _ (h3 h)⟩
    | connect n =>
      exact ⟨⟨hp, h1⟩, fun h => List.mem_cons_of_mem _ (h2 h), fun h => List.mem_cons_of_mem _ (h3 h)⟩
    | listen port =>
      exact ⟨⟨hp, h1⟩, fun h => List.mem_cons_of_mem _ (h2 h), fun h => List.mem_cons_of_mem _ (h3 h)⟩
    | handled req trace =>
      exact ⟨⟨hp, h1⟩, fun h => List.mem_cons_of_mem _ (h2 h), fun h => List.mem_cons_of_mem _ (h3 h)⟩
    | exit code =>
      exact ⟨⟨hp, h1⟩, fun h => List.mem_cons_of_mem _ (h2 h), fun h => List.mem_cons_of_mem _ (h3 h)⟩

theorem perform_log_subset (x : Effect) (s : Proc) (e : Entry) (h : e ∈ s.log) :
    e ∈ (perform x s).log := by
  unfold perform
  split_ifs
  · exact h
  · simp only [apply_log]
    exact List.mem_cons_of_mem _ h

theorem times_onServerClosed_consistent (n : Nat) (s : Proc) (hs : Consistent s)
    (hmem : Entry.event Event.serverClosed ∈ s.log) :
    Consistent (times n onServerClosed s) := by
  induction n generalizing s with
  | zero => exact hs
  | succ k ih =>
    simp only [times]
    apply ih
    · exact perform_consistent _ s hs (fun _ => ⟨rfl, hmem⟩)
    · exact perform_log_subset _ s _ hmem

theorem step_consistent (m : Matcher) (tut : Request → Option Outcome) (env : Env) (s : Proc)
    (ev : Event) (hs : Consistent s) : Consistent (step m tut env s ev) := by
  unfold step
  by_cases he : s.exitCode.isSome = true
  · simpa [he] using hs
  · simp only [he, if_false, Bool.false_eq_true]
    obtain ⟨h1, h2, h3⟩ := hs
    cases ev with
    | connectResolved =>
      simp only
      split_ifs
      · apply perform_consistent
        · exact ⟨⟨trivial, h1⟩, fun h => List.mem_cons_of_mem _ (h2 h),
            fun h => List.mem_cons_of_mem _ (h3 h)⟩
        · intro _; trivial
      · exact ⟨h1, h2, h3⟩
    | connectRejected err =>
      simp only
      split_ifs
      · apply perform_consistent
        · apply perform_consistent
          · exact ⟨⟨trivial, h1⟩, fun h => List.mem_cons_of_mem _ (h2 h),
              fun h => List.mem_cons_of_mem _ (h3 h)⟩
          · intro _; trivial
        · intro _; trivial
      · exact ⟨h1, h2, h3⟩
    | listening =>
      simp only
      split_ifs
      · apply perform_consistent
        · exact ⟨⟨trivial, h1⟩, fun h => List.mem_cons_of_mem _ (h2 h),
            fun h => List.mem_cons_of_mem _ (h3 h)⟩
        · intro _; trivial
      · exact ⟨h1, h2, h3⟩
    | request req =>
      simp only
      split_ifs
      · apply perform_consistent
        · exact ⟨⟨trivial, h1⟩, fun h => List.mem_cons_of_mem _ (h2 h),
            fun h => List.mem_cons_of_mem _ (h3 h)⟩
        · intro _; trivial
      · exact ⟨h1, h2, h3⟩
    | sigterm =>
      simp only
      apply perform_consistent
      · apply perform_consistent
        · exact ⟨⟨trivial, h1⟩, fun h => List.mem_cons_of_mem _ (h2 h),
            fun h => List.mem_cons_of_mem _ (h3 h)⟩
        · intro _; trivial
      · intro _; trivial
    | serverClosed =>
      simp only
      split_ifs with hpos
      · apply times_onServerClosed_consistent
        · refine ⟨⟨h2 hpos, h1⟩, ?_, fun h => List.mem_cons_of_mem _ (h3 h)⟩
          intro h
          exact absurd h (Nat.lt_irrefl 0)
        · exact List.mem_cons_self _ _
      · exact ⟨h1, h2, h3⟩
    | connectionClosed =>
      simp only
      split_ifs with hpos
      · apply perform_consistent
        · apply perform_consistent
          · refine ⟨⟨h3 hpos, h1⟩, fun h => List.mem_cons_of_mem _ (h2 h), ?_⟩
            intro _
            exact List.mem_cons_of_mem _ (h3 hpos)
          · intro _; trivial
        · intro _
          apply perform_log_subset
          exact List.mem_cons_self _ _
      · exact ⟨h1, h2, h3⟩

theorem run_consistent (m : Matcher) (tut : Request → Option Outcome) (env : Env) (s : Proc)
    (evs : List Event) (hs : Consistent s) : Consistent (run m tut env s evs) := by
  induction evs generalizing s with
  | nil => exact hs
  | cons ev evs ih =>
    simp only [run, List.foldl_cons]
    exact ih _ (step_consistent m tut env s ev hs)

theorem main_consistent (env : Env) : Consistent (main env) := by
  refine ⟨⟨trivial, trivial, trivial⟩, ?_, ?_⟩
  · intro h; exact absurd h (Nat.lt_irrefl 0)
  · intro h; exact absurd h (Nat.lt_irrefl 0)

theorem ordered_suffix (newer rest : List Entry) (h : Ordered (newer ++ rest)) : Ordered rest := by
  induction newer with
  | nil => exact h
  | cons e newer ih => exact ih h.2

theorem ordered_at (newer older : List Entry) (e : Entry) (h : Ordered (newer ++ e :: older)) :
    precondition older e ∧ Ordered older :=
  ordered_suffix newer (e :: older) h

theorem ordered_before (log : List Entry) (e : Entry) (h : Ordered log) (he : e ∈ log) :
    ∃ newer older, log = newer ++ e :: older ∧ precondition older e ∧ Ordered older := by
  obtain ⟨newer, older, hlog⟩ := List.append_of_mem he
  subst hlog
  exact ⟨newer, older, rfl, ordered_at newer older e h⟩

theorem connectionClose_after_serverClose (newer older : List Entry) (force : Bool)
    (h : Ordered (newer ++ Entry.effect (Effect.connectionClose force) :: older)) :
    force = false ∧ Entry.event Event.serverClosed ∈ older ∧
      Entry.effect Effect.serverClose ∈ older := by
  obtain ⟨⟨hf, hmem⟩, hold⟩ := ordered_at newer older _ h
  obtain ⟨n2, o2, ho, hp, _⟩ := ordered_before older _ hold hmem
  refine ⟨hf, hmem, ?_⟩
  rw [ho]
  exact List.mem_append_right _ (List.mem_cons_of_mem _ hp)

theorem exit_after_connectionClose (newer older : List Entry)
    (h : Ordered (newer ++ Entry.effect (Effect.exit 0) :: older)) :
    Entry.event Event.connectionClosed ∈ older ∧
      Entry.effect (Effect.connectionClose false) ∈ older ∧
      Entry.event Event.serverClosed ∈ older := by
  obtain ⟨hmem, hold⟩ := ordered_at newer older _ h
  obtain ⟨n2, o2, ho, hp, ho2⟩ := ordered_before older _ hold hmem
  have hp2 : Entry.effect (Effect.connectionClose false) ∈ o2 := hp
  obtain ⟨n3, o3, ho3, hp3, _⟩ := ordered_before o2 _ ho2 hp2
  refine ⟨hmem, ?_, ?_⟩
  · rw [ho]
    exact List.mem_append_right _ (List.mem_cons_of_mem _ hp2)
  · rw [ho, ho3]
    exact List.mem_append_right _ (List.mem_cons_of_mem _
      (List.mem_append_right _ (List.mem_cons_of_mem _ hp3.2)))

/-- C3: in every run, a connection close is never forced and comes only after
the listener has finished closing, which comes only after `server.close`;
`exit(0)` comes only after a connection close has completed, which comes
only after `connection.close(false)`, which comes only after the listener
has finished closing. On SIGTERM followed by the two completions the calls
are, in this order, the log line, `server.close`, `connection.close(false)`,
the log line, `exit(0)`; before the listener has finished closing nothing
but `server.close` has been done, and before the connection close has
completed the process has not exited. -/
theorem shutdown_order (m : Matcher) (tut : Request → Option Outcome) (env : Env)
    (evs : List Event) :
    Ordered (run m tut env (main env) evs).log ∧
    (∀ newer older force,
      (run m tut env (main env) evs).log =
        newer ++ Entry.effect (Effect.connectionClose force) :: older →
      force = false ∧ Entry.event Event.serverClosed ∈ older ∧
        Entry.effect Effect.serverClose ∈ older) ∧
    (∀ newer older,
      (run m tut env (main env) evs).log = newer ++ Entry.effect (Effect.exit 0) :: older →
      Entry.event Event.connectionClosed ∈ older ∧
        Entry.effect (Effect.connectionClose false) ∈ older ∧
        Entry.event Event.serverClosed ∈ older) ∧
    effects (run m tut env (main env)
        [Event.sigterm, Event.serverClosed, Event.connectionClosed]).log =
      [Effect.connect 10, Effect.listen (PORT env),
       Effect.consoleLog "SIGTERM received, shutting down gracefully...",
       Effect.serverClose,
       Effect.connectionClose false,
       Effect.consoleLog "Server and DB connection closed.",
       Effect.exit 0] ∧
    (run m tut env (main env)
        [Event.sigterm, Event.serverClosed, Event.connectionClosed]).exitCode = some 0 ∧
    effects (run m tut env (main env) [Event.sigterm]).log =
      [Effect.connect 10, Effect.listen (PORT env),
       Effect.consoleLog "SIGTERM received, shutting down gracefully...",
       Effect.serverClose] ∧
    effects (run m tut env (main env) [Event.sigterm, Event.serverClosed]).log =
      [Effect.connect 10, Effect.listen (PORT env),
       Effect.consoleLog "SIGTERM received, shutting down gracefully...",
       Effect.serverClose,
       Effect.connectionClose false] ∧
    (run m tut env (main env) [Event.sigterm, Event.serverClosed]).exitCode = none := by
  have h := (run_consistent m tut env _ evs (main_consistent env)).1
  refine ⟨h, ?_, ?_, rfl, rfl, rfl, rfl, rfl⟩
  · intro newer older force hlog
    rw [hlog] at h
    exact connectionClose_after_serverClose newer older force h
  · intro newer older hlog
    rw [hlog] at h
    exact exit_after_connectionClose newer older h

/-- Instance of C3 at the run SIGTERM, listener closed, connection closed. -/
theorem shutdown_order_witness :
    Entry.event Event.connectionClosed ∈
      (run expressMatch (fun _ => none) { CORS_ORIGIN := none, PORT := none }
        (main { CORS_ORIGIN := none, PORT := none })
        [Event.sigterm, Event.serverClosed, Event.connectionClosed]).log.tail :=
  ((shutdown_order expressMatch (fun _ => none) { CORS_ORIGIN := none, PORT := none }
    [Event.sigterm, Event.serverClosed, Event.connectionClosed]).2.2.1 []
    (run expressMatch (fun _ => none) { CORS_ORIGIN := none, PORT := none }
        (main { CORS_ORIGIN := none, PORT := none })
        [Event.sigterm, Event.serverClosed, Event.connectionClosed]).log.tail
    (by decide)).1

theorem connectCalls_perform (x : Effect) (s : Proc) (hx : ∀ n, x ≠ Effect.connect n) :
    connectCalls (perform x s).log = connectCalls s.log := by
  unfold perform
  split_ifs
  · rfl
  · cases x with
    | connect n => exact absurd rfl (hx n)
    | _ => simp [connectCalls, Effect.apply]

theorem connectCalls_times (n : Nat) (s : Proc) :
    connectCalls (times n onServerClosed s).log = connectCalls s.log := by
  induction n generalizing s with
  | zero => rfl
  | succ k ih =>
    simp only [times]
    rw [ih, onServerClosed, connectCalls_perform _ _ (by intro n; simp)]

theorem connectCalls_step (m : Matcher) (tut : Request → Option Outcome) (env : Env) (s : Proc)
    (ev : Event) : connectCalls (step m tut env s ev).log = connectCalls s.log := by
  unfold step
  by_cases he : s.exitCode.isSome = true
  · simp [he]
  · simp only [he, if_false, Bool.false_eq_true]
    cases ev with
    | connectResolved =>
      simp only
      split_ifs
      · rw [onConnected, connectCalls_perform _ _ (by intro n; simp)]
        simp [deliver, connectCalls]
      · rfl
    | connectRejected err =>
      simp only
      split_ifs
      · rw [onConnectError, connectCalls_perform _ _ (by intro n; simp),
          connectCalls_perform _ _ (by intro n; simp)]
        simp [deliver, connectCalls]
      · rfl
    | listening =>
      simp only
      split_ifs
      · rw [onListening, connectCalls_perform _ _ (by intro n; simp)]
        simp [deliver, connectCalls]
      · rfl
    | request req =>
      simp only
      split_ifs
      · rw [connectCalls_perform _ _ (by intro n; simp)]
        simp [deliver, connectCalls]
      · rfl
    | sigterm =>
      simp only
      rw [onSigterm, connectCalls_perform _ _ (by intro n; simp),
        connectCalls_perform _ _ (by intro n; simp)]
      simp [deliver, connectCalls]
    | serverClosed =>
      simp only
      split_ifs
      · rw [connectCalls_times]
        simp [deliver, connectCalls]
      · rfl
    | connectionClosed =>
      simp only
      split_ifs
      · rw [onConnectionClosed, connectCalls_perform _ _ (by intro n; simp),
          connectCalls_perform _ _ (by intro n; simp)]
        simp [deliver, connectCalls]
      · rfl

theorem connectCalls_run (m : Matcher) (tut : Request → Option Outcome) (env : Env) (s : Proc)
    (evs : List Event) : connectCalls (run m tut env s evs).log = connectCalls s.log := by
  induction evs generalizing s with
  | nil => rfl
  | cons ev evs ih =>
    simp only [run, List.foldl_cons] at ih ⊢
    rw [ih, connectCalls_step]

/-- C4: in every state a run can reach with the process running and the
connect promise pending, a rejection with any error makes the process log
the error and exit with status 1; a resolution leaves the exit status as it
is (the startup code does not end the process); and every run, whatever
happens in it, holds exactly one `connect` call, so a failed connect is not
tried again. -/
theorem connect_failure_exits (m : Matcher) (tut : Request → Option Outcome) (env : Env)
    (pre : List Event) (err : Err) :
    (run m tut env (main env) [Event.connectRejected err]).exitCode = some 1 ∧
    ((run m tut env (main env) pre).exitCode = none →
      (run m tut env (main env) pre).connectPending = true →
      (step m tut env (run m tut env (main env) pre) (Event.connectRejected err)).exitCode
          = some 1 ∧
      (step m tut env (run m tut env (main env) pre) (Event.connectRejected err)).log =
        Entry.effect (Effect.exit 1) ::
        Entry.effect (Effect.consoleError ("Cannot connect to the database! " ++ err.stack)) ::
        Entry.event (Event.connectRejected err) :: (run m tut env (main env) pre).log) ∧
    (step m tut env (run m tut env (main env) pre) Event.connectResolved).exitCode =
      (run m tut env (main env) pre).exitCode ∧
    (run m tut env (main env) [Event.connectResolved]).exitCode = none ∧
    connectCalls (run m tut env (main env) pre).log = 1 := by
  refine ⟨rfl, ?_, ?_, rfl, ?_⟩
  · intro halive hpending
    simp [step, halive, hpending, onConnectError, perform, deliver, Effect.apply]
  · by_cases he : (run m tut env (main env) pre).exitCode.isSome = true
    · rw [step_of_exited _ _ _ _ _ he]
    · have hn : (run m tut env (main env) pre).exitCode = none := by
        cases h : (run m tut env (main env) pre).exitCode with
        | none => rfl
        | some c => simp [h] at he
      by_cases hp : (run m tut env (main env) pre).connectPending = true
      · simp [step, hn, hp, onConnected, perform, deliver, Effect.apply]
      · simp [step, hn, hp]
  · rw [connectCalls_run]; rfl

/-- Instance of C4 at a rejection that follows the `listening` event. -/
theorem connect_failure_exits_witness :
    (step expressMatch (fun _ => none) { CORS_ORIGIN := none, PORT := none }
      (run expressMatch (fun _ => none) { CORS_ORIGIN := none, PORT := none }
        (main { CORS_ORIGIN := none, PORT := none }) [Event.listening])
      (Event.connectRejected (newError "ECONNREFUSED"))).exitCode = some 1 :=
  ((connect_failure_exits expressMatch (fun _ => none) { CORS_ORIGIN := none, PORT := none }
    [Event.listening] (newError "ECONNREFUSED")).2.1 rfl rfl).1

/-- C2 fails: with the default environment, a `GET /health` request that
arrives right after the script has run is dispatched and answered 503 while
the connect promise is still pending and no connection has been
established. -/
theorem request_served_while_connecting :
    (run expressMatch (fun _ => none) { CORS_ORIGIN := none, PORT := none }
      (main { CORS_ORIGIN := none, PORT := none })
      [Event.request { method := "GET", path := "/health", origin := none,
                       contentKind := ContentKind.other, decodable := true, bodyLength := 0,
                       wellFormed := true }]).log.reverse =
      [Entry.effect (Effect.connect 10), Entry.effect (Effect.listen "8080"),
       Entry.event (Event.request
          { method := "GET", path := "/health", origin := none,
            contentKind := ContentKind.other, decodable := true, bodyLength := 0, wellFormed := true }),
       Entry.effect (Effect.handled
          { method := "GET", path := "/health", origin := none,
            contentKind := ContentKind.other, decodable := true, bodyLength := 0, wellFormed := true }
          [("helmet", Outcome.next), ("compression", Outcome.next), ("cors", Outcome.next),
           ("json", Outcome.next), ("urlencoded", Outcome.next),
           ("health", Outcome.respond
              { status := 503,
                body := Body.object [("status", "error"), ("db", "disconnected")] })])] ∧
    (run expressMatch (fun _ => none) { CORS_ORIGIN := none, PORT := none }
      (main { CORS_ORIGIN := none, PORT := none })
      [Event.request { method := "GET", path := "/health", origin := none,
                       contentKind := ContentKind.other, decodable := true, bodyLength := 0,
                       wellFormed := true }]).connectPending = true ∧
    (main { CORS_ORIGIN := none, PORT := none }).connectPending = true ∧
    (main { CORS_ORIGIN := none, PORT := none }).listening = true := by
  decide

/-- C2, amended: in every startup run `mongoose.connect` is called before
`app.listen`, and `app.listen` is called in the same synchronous run, while
the connect promise is pending: the listener accepts from then on, and a
request that arrives before the promise settles is dispatched, with
`readyState` 2. After a connect failure the process has exited with status
1 and no request is dispatched; in general no event changes the state of a
process that has exited. -/
theorem listen_does_not_wait_for_connect (m : Matcher) (tut : Request → Option Outcome)
    (env : Env) (req : Request) (err : Err) (pre evs : List Event) :
    effects (main env).log = [Effect.connect 10, Effect.listen (PORT env)] ∧
    (main env).listening = true ∧ (main env).connectPending = true ∧
    (main env).readyState = 2 ∧
    (step m tut env (main env) (Event.request req)).log =
      Entry.effect (Effect.handled req (handle m (allowedOrigins env.CORS_ORIGIN) tut 2 req)) ::
      Entry.event (Event.request req) :: (main env).log ∧
    (run m tut env (main env) (Event.connectRejected err :: evs)).exitCode = some 1 ∧
    servedRequests (run m tut env (main env) (Event.connectRejected err :: evs)).log = 0 ∧
    ((run m tut env (main env) pre).exitCode ≠ none →
      run m tut env (main env) (pre ++ evs) = run m tut env (main env) pre) := by
  have hrej : run m tut env (main env) (Event.connectRejected err :: evs) =
      step m tut env (main env) (Event.connectRejected err) := by
    simp only [run, List.foldl_cons]
    exact run_of_exited m tut env _ evs rfl
  refine ⟨rfl, rfl, rfl, rfl, rfl, ?_, ?_, ?_⟩
  · rw [hrej]; rfl
  · rw [hrej]; rfl
  · intro h
    rw [run_append]
    apply run_of_exited
    cases hx : (run m tut env (main env) pre).exitCode with
    | none => exact absurd hx h
    | some c => rfl

/-- Instance of the amended C2: a request after a failed connect changes nothing. -/
theorem listen_does_not_wait_for_connect_witness :
    run expressMatch (fun _ => none) { CORS_ORIGIN := none, PORT := none }
        (main { CORS_ORIGIN := none, PORT := none })
        ([Event.connectRejected (newError "ECONNREFUSED")] ++
          [Event.request { method := "GET", path := "/health", origin := none,
                           contentKind := ContentKind.other, decodable := true, bodyLength := 0,
                           wellFormed := true }]) =
      run expressMatch (fun _ => none) { CORS_ORIGIN := none, PORT := none }
        (main { CORS_ORIGIN := none, PORT := none })
        [Event.connectRejected (newError "ECONNREFUSED")] :=
  (listen_does_not_wait_for_connect expressMatch (fun _ => none)
    { CORS_ORIGIN := none, PORT := none }
    { method := "GET", path := "/health", origin := none,
      contentKind := ContentKind.other, decodable := true, bodyLength := 0, wellFormed := true }
    (newError "ECONNREFUSED") [Event.connectRejected (newError "ECONNREFUSED")]
    [Event.request { method := "GET", path := "/health", origin := none,
                     contentKind := ContentKind.other, decodable := true, bodyLength := 0,
                     wellFormed := true }]).2.2.2.2.2.2.2 (by decide)

end Server
